import Mathlib

/-!
# Transaction-integrity core of the didactic blockchain demo

A shallow embedding of the transaction demo application: canonical JSON
serialization of a `Transaction` record, the double-SHA-256 identifier,
the HMAC-SHA-256 signature, and the three session actions (generate key,
build-and-sign, verify-with-altered-memo) as a state machine.

Bytes are `List Nat` with values below 256; 32-bit machine words are `Nat`
taken modulo `2 ^ 32` explicitly. All definitions are structurally
recursive and executable, so concrete runs reduce in the kernel.
-/

set_option maxRecDepth 1000000
set_option maxHeartbeats 4000000

namespace TxSim

/-! ## 32-bit words and SHA-256 (FIPS 180-4), modelling `hashlib.sha256` -/

/-- Truncation to a 32-bit word. -/
def w32 (n : Nat) : Nat := n % 4294967296

/-- Rotate a 32-bit word right by `n` bit positions. -/
def rotr (n x : Nat) : Nat := w32 ((x >>> n) ||| (x <<< (32 - n)))

/-- Big sigma 0. -/
def bsig0 (x : Nat) : Nat := rotr 2 x ^^^ rotr 13 x ^^^ rotr 22 x

/-- Big sigma 1. -/
def bsig1 (x : Nat) : Nat := rotr 6 x ^^^ rotr 11 x ^^^ rotr 25 x

/-- Small sigma 0. -/
def ssig0 (x : Nat) : Nat := rotr 7 x ^^^ rotr 18 x ^^^ (x >>> 3)

/-- Small sigma 1. -/
def ssig1 (x : Nat) : Nat := rotr 17 x ^^^ rotr 19 x ^^^ (x >>> 10)

/-- Choice function. -/
def chF (x y z : Nat) : Nat := (x &&& y) ^^^ ((x ^^^ 4294967295) &&& z)

/-- Majority function. -/
def majF (x y z : Nat) : Nat := (x &&& y) ^^^ (x &&& z) ^^^ (y &&& z)

/-- The 64 round constants of FIPS 180-4, written in decimal. -/
def sha256K : List Nat :=
  [1116352408, 1899447441, 3049323471, 3921009573, 961987163,
   1508970993, 2453635748, 2870763221, 3624381080, 310598401,
   607225278, 1426881987, 1925078388, 2162078206, 2614888103,
   3248222580, 3835390401, 4022224774, 264347078, 604807628,
   770255983, 1249150122, 1555081692, 1996064986, 2554220882,
   2821834349, 2952996808, 3210313671, 3336571891, 3584528711,
   113926993, 338241895, 666307205, 773529912, 1294757372,
   1396182291, 1695183700, 1986661051, 2177026350, 2456956037,
   2730485921, 2820302411, 3259730800, 3345764771, 3516065817,
   3600352804, 4094571909, 275423344, 430227734, 506948616,
   659060556, 883997877, 958139571, 1322822218, 1537002063,
   1747873779, 1955562222, 2024104815, 2227730452, 2361852424,
   2428436474, 2756734187, 3204031479, 3329325298]

/-- The eight initial hash words of FIPS 180-4, written in decimal. -/
def sha256H0 : List Nat :=
  [1779033703, 3144134277, 1013904242, 2773480762,
   1359893119, 2600822924, 528734635, 1541459225]

/-- `k` bytes of `n`, big endian. -/
def beBytes : Nat → Nat → List Nat
  | 0, _ => []
  | k + 1, n => beBytes k (n / 256) ++ [n % 256]

/-- SHA-256 padding: a 0x80 byte, zeros to 56 mod 64, then the bit length
as 8 big-endian bytes. -/
def padMsg (msg : List Nat) : List Nat :=
  msg ++ [128] ++ List.replicate ((119 - msg.length % 64) % 64) 0
      ++ beBytes 8 (8 * msg.length)

/-- Groups of four bytes as big-endian 32-bit words. -/
def toWords : List Nat → List Nat
  | a :: b :: c :: d :: rest => (((a * 256 + b) * 256 + c) * 256 + d) :: toWords rest
  | _ => []

/-- List lookup defaulting to zero. -/
def wget (l : List Nat) (i : Nat) : Nat := l.getD i 0

/-- Extend the message schedule by `n` further words. -/
def extendSchedule : Nat → List Nat → List Nat
  | 0, w => w
  | n + 1, w =>
    extendSchedule n (w ++ [w32 (wget w (w.length - 16) + ssig0 (wget w (w.length - 15))
      + wget w (w.length - 7) + ssig1 (wget w (w.length - 2)))])

/-- The eight SHA-256 working registers. -/
structure Regs where
  ra : Nat
  rb : Nat
  rc : Nat
  rd : Nat
  re : Nat
  rf : Nat
  rg : Nat
  rh : Nat

/-- One compression round: `kw` is the round constant paired with the
schedule word. -/
def roundStep (r : Regs) (kw : Nat × Nat) : Regs :=
  let t1 := w32 (r.rh + bsig1 r.re + chF r.re r.rf r.rg + kw.1 + kw.2)
  let t2 := w32 (bsig0 r.ra + majF r.ra r.rb r.rc)
  ⟨w32 (t1 + t2), r.ra, r.rb, r.rc, w32 (r.rd + t1), r.re, r.rf, r.rg⟩

/-- Compress one 64-byte block into the running hash state. -/
def compressBlock (h : List Nat) (block : List Nat) : List Nat :=
  let ws := extendSchedule 48 (toWords block)
  let r0 : Regs := ⟨wget h 0, wget h 1, wget h 2, wget h 3,
                    wget h 4, wget h 5, wget h 6, wget h 7⟩
  let r := (sha256K.zip ws).foldl roundStep r0
  [w32 (wget h 0 + r.ra), w32 (wget h 1 + r.rb), w32 (wget h 2 + r.rc),
   w32 (wget h 3 + r.rd), w32 (wget h 4 + r.re), w32 (wget h 5 + r.rf),
   w32 (wget h 6 + r.rg), w32 (wget h 7 + r.rh)]

/-- Fold the compression function over consecutive 64-byte blocks; the
first argument is fuel bounding the number of blocks. -/
def processBlocks : Nat → List Nat → List Nat → List Nat
  | 0, h, _ => h
  | _ + 1, h, [] => h
  | fuel + 1, h, msg => processBlocks fuel (compressBlock h (msg.take 64)) (msg.drop 64)

/-- SHA-256 of a byte list, as its 32 digest bytes.  Models
`hashlib.sha256(b).digest()`. -/
def sha256 (msg : List Nat) : List Nat :=
  let padded := padMsg msg
  ((processBlocks (padded.length / 64) sha256H0 padded).map (beBytes 4)).flatten

/-- Double SHA-256, translated from `sha256d` (line 21-22 of the source):
`hashlib.sha256(hashlib.sha256(b).digest()).digest()`. -/
def sha256d (b : List Nat) : List Nat := sha256 (sha256 b)

/-- HMAC-SHA-256 (RFC 2104 with SHA-256, 64-byte block), modelling
`hmac.new(key, msg, hashlib.sha256).digest()` from `hmac_sha256`
(line 24-25 of the source). -/
def hmac_sha256 (key msg : List Nat) : List Nat :=
  let k0 := if 64 < key.length then sha256 key else key
  let kp := k0 ++ List.replicate (64 - k0.length) 0
  sha256 ((kp.map fun b => b ^^^ 92) ++ sha256 ((kp.map fun b => b ^^^ 54) ++ msg))

/-! ## Lowercase hex rendering, modelling `bytes.hex()` -/

/-- The sixteen lowercase hexadecimal digits. -/
def hexDigits : List Char := "0123456789abcdef".data

/-- The lowercase hex digit of a value below 16. -/
def hexDig (n : Nat) : Char := hexDigits.getD n '0'

/-- Lowercase hex string of a byte list, two digits per byte.  Models
Python `bytes.hex()`. -/
def bytesToHex (l : List Nat) : String :=
  String.mk ((l.map fun b => [hexDig (b / 16 % 16), hexDig (b % 16)]).flatten)

/-! ## UTF-8 encoding, modelling `str.encode("utf-8")` -/

/-- UTF-8 bytes of a Unicode scalar value. -/
def utf8Char (c : Nat) : List Nat :=
  if c < 128 then [c]
  else if c < 2048 then [192 + c / 64, 128 + c % 64]
  else if c < 65536 then [224 + c / 4096, 128 + c / 64 % 64, 128 + c % 64]
  else [240 + c / 262144, 128 + c / 4096 % 64, 128 + c / 64 % 64, 128 + c % 64]

/-- UTF-8 bytes of a string, modelling Python `str.encode("utf-8")`. -/
def strUtf8 (s : String) : List Nat := (s.data.map fun c => utf8Char c.toNat).flatten

/-! ## JSON values and `json.dumps(·, ensure_ascii=False, separators=(",", ":"), sort_keys=True)`

The application serializes with the `json` standard library; the model
below reproduces exactly the options used at lines 53 and 126 of the
source: keys of every object sorted lexicographically, `","` and `":"`
as separators with no added whitespace, and non-ASCII characters emitted
untouched (only `"`, `\` and control characters below 0x20 escaped). -/

/-- A JSON value as the application uses them: integers, strings, arrays
and objects given as key-value lists. -/
inductive Json where
  | num (n : Int)
  | str (s : String)
  | arr (elems : List Json)
  | obj (entries : List (String × Json))

/-- Decimal rendering of an integer, as Python `repr` of `int`. -/
def intRepr (n : Int) : String :=
  if n < 0 then "-" ++ Nat.repr n.natAbs else Nat.repr n.toNat

/-- JSON escaping of one character with `ensure_ascii=False`: only the
quote, the backslash and control characters below 0x20 are escaped;
everything else, ASCII or not, stands for itself. -/
def escChar (c : Char) : List Char :=
  if c = '"' then ['\\', '"']
  else if c = '\\' then ['\\', '\\']
  else if c = '\n' then ['\\', 'n']
  else if c = '\t' then ['\\', 't']
  else if c = '\r' then ['\\', 'r']
  else if c.toNat = 8 then ['\\', 'b']
  else if c.toNat = 12 then ['\\', 'f']
  else if c.toNat < 32 then ['\\', 'u', '0', '0', hexDig (c.toNat / 16), hexDig (c.toNat % 16)]
  else [c]

/-- JSON escaping of a string body (without the surrounding quotes). -/
def jsonEscape (s : String) : String := String.mk ((s.data.map escChar).flatten)

/-- A JSON string literal: escaped body in double quotes. -/
def jstr (s : String) : String := "\"" ++ jsonEscape s ++ "\""

/-- Lexicographic order on character lists by code point, as Python
compares strings. -/
def charListLt : List Char → List Char → Bool
  | _, [] => false
  | [], _ :: _ => true
  | a :: as, b :: bs =>
    if a.toNat < b.toNat then true
    else if b.toNat < a.toNat then false
    else charListLt as bs

/-- Lexicographic order on strings by code point, as Python compares
strings. -/
def strLt (a b : String) : Bool := charListLt a.data b.data

/-- Insert an entry into a key-sorted entry list, before the first entry
whose key is not smaller (Python `sorted` on the keys ascending). -/
def insertEntry (p : String × Json) : List (String × Json) → List (String × Json)
  | [] => [p]
  | q :: r => if strLt q.1 p.1 then q :: insertEntry p r else p :: q :: r

/-- Sort an object's entries by key ascending, as `sort_keys=True` does. -/
def sortEntries : List (String × Json) → List (String × Json)
  | [] => []
  | p :: r => insertEntry p (sortEntries r)

/-- `",".join`: concatenation with the tightest item separator. -/
def joinComma : List String → String
  | [] => ""
  | [a] => a
  | a :: rest => a ++ "," ++ joinComma rest

/-- `json.dumps(·, ensure_ascii=False, separators=(",", ":"), sort_keys=True)`,
with fuel bounding the nesting depth (the transaction values have depth
at most four; `dumps` below supplies ample fuel). -/
def dumpsF : Nat → Json → String
  | 0, _ => ""
  | _ + 1, .num n => intRepr n
  | _ + 1, .str s => jstr s
  | fuel + 1, .arr l => "[" ++ joinComma (l.map (dumpsF fuel)) ++ "]"
  | fuel + 1, .obj l =>
    "\x7b" ++ joinComma
      ((sortEntries l).map fun p => jstr p.1 ++ ":" ++ dumpsF fuel p.2) ++ "\x7d"

/-- The dump of a transaction-shaped JSON value (fuel 8 exceeds every
nesting depth the application ever serializes). -/
def dumps (j : Json) : String := dumpsF 8 j

/-! ## The transaction record (source lines 27-56) -/

/-- A transaction input, from the `TxInput` dataclass. -/
structure TxInput where
  prev_txid : String
  index : Int
  deriving DecidableEq, Repr

/-- A transaction output, from the `TxOutput` dataclass. -/
structure TxOutput where
  address : String
  amount : Int
  deriving DecidableEq, Repr

/-- The transaction record, from the `Transaction` dataclass. -/
structure Transaction where
  version : Int
  timestamp : Int
  vin : List TxInput
  vout : List TxOutput
  memo : String := ""
  deriving DecidableEq, Repr

/-- The JSON object of an input, as `asdict` produces it (field order of
the dataclass: `prev_txid` then `index`). -/
def txInputJson (i : TxInput) : Json :=
  .obj [("prev_txid", .str i.prev_txid), ("index", .num i.index)]

/-- The JSON object of an output, as `asdict` produces it. -/
def txOutputJson (o : TxOutput) : Json :=
  .obj [("address", .str o.address), ("amount", .num o.amount)]

/-- The top-level entry list built at lines 46-52 of the source, in the
construction order written there (sorting happens inside `dumps`). -/
def txEntries (tx : Transaction) : List (String × Json) :=
  [("version", .num tx.version), ("timestamp", .num tx.timestamp),
   ("vin", .arr (tx.vin.map txInputJson)),
   ("vout", .arr (tx.vout.map txOutputJson)),
   ("memo", .str tx.memo)]

/-- `Transaction.serialize` (source line 45-53): dump the field map with
sorted keys and tight separators, then UTF-8 encode. -/
def Transaction.serialize (tx : Transaction) : List Nat :=
  strUtf8 (dumps (.obj (txEntries tx)))

/-- The content identifier of a byte sequence: lowercase hex of the double
SHA-256, the `sha256d(...).hex()` idiom used at source lines 56 and 127. -/
def hexId (b : List Nat) : String := bytesToHex (sha256d b)

/-- `Transaction.txid` (source line 55-56): lowercase hex of the double
SHA-256 of the serialization. -/
def Transaction.txid (tx : Transaction) : String := hexId tx.serialize

/-! ## The session workflow (source lines 59-137)

The Streamlit shell keeps three session slots: `priv_key`,
`orig_signature` and `orig_serialization` (lines 59-64), and exposes
three actions: generate key (lines 68-71), build-and-sign (lines
95-108) and verify-with-alteration (lines 119-131).  The app stores
`orig_serialization` as the serialized bytes and parses them back with
`json.loads` at line 124; every stored value is `json.dumps` output, and
`loads` inverts `dumps`, so the state below carries the parsed JSON
value, the byte form being `strUtf8 (dumps ·)`.  Buttons disabled by the
shell (sign without a key, line 95; verify without a signature, line
119) are modelled as actions that return an error and leave the state
untouched. -/

/-- The error taxonomy of the contract: `invalidKey` models the sign
action being unavailable without a key (line 95) and the `TypeError`
that `hmac.new` raises on a `None` key; `malformedState` models the
verify action being unavailable without a signed record (lines 119-121)
and the info branch at lines 136-137. -/
inductive SessionError where
  | invalidKey
  | malformedState
  deriving DecidableEq, Repr

/-- The per-session state slots initialised at source lines 59-64. -/
structure SessionState where
  priv_key : Option (List Nat)
  orig_signature : Option String
  orig_serialization : Option Json

/-- The initial session state: no key, no signature, no serialization. -/
def initState : SessionState := ⟨none, none, none⟩

/-- The generate-key handler (source lines 68-71): store the fresh key
and clear both signed-record slots. -/
def generateKey (_s : SessionState) (k : List Nat) : SessionState :=
  ⟨some k, none, none⟩

/-- The transaction form fields (source lines 81-93). -/
structure FormInputs where
  prev_txid : String
  index : Int
  addr_1 : String
  amt_1 : Int
  addr_2 : String
  amt_2 : Int
  memo : String

/-- The outputs list built at source line 100: the first destination
always, the second only when its address is truthy (non-empty) and its
amount is strictly positive. -/
def buildVout (addr_1 : String) (amt_1 : Int) (addr_2 : String) (amt_2 : Int) :
    List TxOutput :=
  [{ address := addr_1, amount := amt_1 }]
    ++ (if addr_2 ≠ "" ∧ 0 < amt_2 then [{ address := addr_2, amount := amt_2 }] else [])

/-- The transaction constructed at source lines 96-102; `now` is the
`int(time.time())` timestamp. -/
def buildTx (f : FormInputs) (now : Int) : Transaction :=
  { version := 1, timestamp := now,
    vin := [{ prev_txid := f.prev_txid, index := f.index }],
    vout := buildVout f.addr_1 f.amt_1 f.addr_2 f.amt_2,
    memo := f.memo }

/-- What the build-and-sign handler displays (lines 110-113). -/
structure BuildOutput where
  ser : List Nat
  txid : String
  signature : String

/-- The build-and-sign handler (source lines 95-108): refuse without a
key (the button is disabled), otherwise build the transaction, serialize
it, sign the bytes with HMAC-SHA-256 and store signature and
serialization in the session. -/
def buildAndSign (s : SessionState) (f : FormInputs) (now : Int) :
    SessionState × Except SessionError BuildOutput :=
  match s.priv_key with
  | none => (s, .error .invalidKey)
  | some key =>
    let tx := buildTx f now
    let ser := tx.serialize
    let signature := bytesToHex (hmac_sha256 key ser)
    (⟨some key, some signature, some (.obj (txEntries tx))⟩,
      .ok ⟨ser, tx.txid, signature⟩)

/-- Python dict assignment `d[k] = v`: replace the value at an existing
key in place, append the pair otherwise. -/
def setEntry : List (String × Json) → String → Json → List (String × Json)
  | [], k, v => [(k, v)]
  | (k', v') :: r, k, v =>
    if k' = k then (k, v) :: r else (k', v') :: setEntry r k v

/-- `original["memo"] = alter_memo` (source line 125) on the parsed
JSON value; the stored value is always an object. -/
def setMemo (j : Json) (m : String) : Json :=
  match j with
  | .obj l => .obj (setEntry l "memo" (.str m))
  | other => other

/-- The signature check of source line 128: recompute the HMAC over the
given message bytes under the given key, render it lowercase hex, and
compare with the expected signature string. -/
def verifySig (key msg : List Nat) (expected : String) : Bool :=
  bytesToHex (hmac_sha256 key msg) == expected

/-- What the verify handler displays (lines 129-131). -/
structure VerifyOutput where
  ser2 : List Nat
  txid2 : String
  ok : Bool

/-- The verify-with-alteration handler (source lines 119-131): refuse
without a signed record (the button is disabled at line 119 and the
body is guarded at line 121); otherwise substitute the altered memo
into the stored original structure, re-dump it with the same options,
recompute the identifier and compare the recomputed HMAC hex with the
stored signature.  No session slot is written. -/
def verifyAltered (s : SessionState) (alter_memo : String) :
    SessionState × Except SessionError VerifyOutput :=
  match s.orig_signature, s.orig_serialization, s.priv_key with
  | none, _, _ => (s, .error .malformedState)
  | some _, none, _ => (s, .error .malformedState)
  | some _, some _, none => (s, .error .invalidKey)
  | some sig, some orig, some key =>
    let ser2 := strUtf8 (dumps (setMemo orig alter_memo))
    let txid2 := hexId ser2
    (s, .ok ⟨ser2, txid2, verifySig key ser2 sig⟩)

/-- The session states the interface can actually reach: from the
initial state through the three handlers, generated keys being the 32
bytes of `secrets.token_bytes(32)`. -/
inductive Reachable : SessionState → Prop where
  | init : Reachable initState
  | gen {s k} : Reachable s → k.length = 32 → Reachable (generateKey s k)
  | build {s f now} : Reachable s → Reachable (buildAndSign s f now).1
  | alter {s m} : Reachable s → Reachable (verifyAltered s m).1

/-! ## The canonical text the specification describes

The definitions below restate, in the spec's words, what the encoding
must look like: exactly the documented keys, each object's keys in
lexicographic order, `","`/`":"` as the tightest separators, string
bodies escaped only at the quote, the backslash and control characters.
They are compared against `Transaction.serialize` in claim C1. -/

/-- Stated from the spec: the text of one `vin` element - the keys
`index` and `prev_txid` in lexicographic order, tight separators. -/
def specInputText (i : TxInput) : String :=
  "\x7b" ++ joinComma ["\"index\"" ++ ":" ++ intRepr i.index,
                    "\"prev_txid\"" ++ ":" ++ jstr i.prev_txid] ++ "\x7d"

/-- Stated from the spec: the text of one `vout` element - the keys
`address` and `amount` in lexicographic order, tight separators. -/
def specOutputText (o : TxOutput) : String :=
  "\x7b" ++ joinComma ["\"address\"" ++ ":" ++ jstr o.address,
                    "\"amount\"" ++ ":" ++ intRepr o.amount] ++ "\x7d"

/-- Stated from the spec: the full canonical text - exactly the keys
`memo`, `timestamp`, `version`, `vin`, `vout` in lexicographic order,
`vin` and `vout` as sequences of the element texts above, tight
separators everywhere. -/
def specTxText (tx : Transaction) : String :=
  "\x7b" ++ joinComma
      ["\"memo\"" ++ ":" ++ jstr tx.memo,
       "\"timestamp\"" ++ ":" ++ intRepr tx.timestamp,
       "\"version\"" ++ ":" ++ intRepr tx.version,
       "\"vin\"" ++ ":" ++ ("[" ++ joinComma (tx.vin.map specInputText) ++ "]"),
       "\"vout\"" ++ ":" ++ ("[" ++ joinComma (tx.vout.map specOutputText) ++ "]")]
    ++ "\x7d"

/-- Key order between entries: the second key is not below the first. -/
def keyLe (p q : String × Json) : Prop := strLt q.1 p.1 = false

/-- The concrete scenario of the spec's testable properties: version 1,
timestamp 1700000000, one input referencing `"a1" * 32` at index 0, one
output of 5000 units, memo `"test"`. -/
def specScenarioTx : Transaction :=
  { version := 1, timestamp := 1700000000,
    vin := [{ prev_txid := "a1a1a1a1a1a1a1a1a1a1a1a1a1a1a1a1a1a1a1a1a1a1a1a1a1a1a1a1a1a1a1a1",
              index := 0 }],
    vout := [{ address := "EDU1DESTINOAAAA1111", amount := 5000 }],
    memo := "test" }

/-- A fixed demonstration key (32 bytes, as `secrets.token_bytes(32)`
produces). -/
def demoKey : List Nat := List.range 32

/-- The form inputs that build the spec's concrete scenario (the second
destination left empty). -/
def scenarioInputs : FormInputs :=
  { prev_txid := "a1a1a1a1a1a1a1a1a1a1a1a1a1a1a1a1a1a1a1a1a1a1a1a1a1a1a1a1a1a1a1a1",
    index := 0, addr_1 := "EDU1DESTINOAAAA1111", amt_1 := 5000,
    addr_2 := "", amt_2 := 0, memo := "test" }

/-- The match flag of a verify result, when the handler succeeded. -/
def okOf : Except SessionError VerifyOutput → Option Bool
  | .ok out => some out.ok
  | .error _ => none

/-! ## Helper lemmas -/

/-- Every character `hexDig` can produce is one of the sixteen lowercase
hexadecimal digits. -/
theorem hexDig_mem (n : Nat) : hexDig n ∈ hexDigits := by
  by_cases h : n < 16
  · interval_cases n <;> decide
  · unfold hexDig
    rw [List.getD_eq_default]
    · decide
    · simp only [hexDigits, List.length_cons, List.length_nil]
      omega

/-- Bytes emitted by the big-endian splitter are below 256. -/
theorem beBytes_lt {k n b : Nat} (h : b ∈ beBytes k n) : b < 256 := by
  induction k generalizing n with
  | zero => simp [beBytes] at h
  | succ k ih =>
    simp only [beBytes, List.mem_append, List.mem_singleton] at h
    rcases h with h | h
    · exact ih h
    · subst h
      exact Nat.mod_lt _ (by norm_num)

/-- SHA-256 digests consist of bytes below 256. -/
theorem sha256_lt {msg : List Nat} : ∀ b ∈ sha256 msg, b < 256 := by
  intro b hb
  simp only [sha256, List.mem_flatten, List.mem_map] at hb
  obtain ⟨l, ⟨w, _, rfl⟩, hbl⟩ := hb
  exact beBytes_lt hbl

/-- Distinct values below 16 have distinct hex digits. -/
theorem hexDig_inj : ∀ m < 16, ∀ n < 16, hexDig m = hexDig n → m = n := by decide

/-- Hex rendering is injective on byte lists. -/
theorem bytesToHex_inj {l l' : List Nat} (hl : ∀ b ∈ l, b < 256)
    (hl' : ∀ b ∈ l', b < 256) (h : bytesToHex l = bytesToHex l') : l = l' := by
  replace h := congrArg String.data h
  induction l generalizing l' with
  | nil =>
    cases l' with
    | nil => rfl
    | cons a r => simp [bytesToHex] at h
  | cons a r ih =>
    cases l' with
    | nil => simp [bytesToHex] at h
    | cons a' r' =>
      simp only [bytesToHex, List.map_cons, List.flatten_cons, List.cons_append,
        List.nil_append, List.cons.injEq] at h
      obtain ⟨h1, h2, h3⟩ := h
      have ha : a < 256 := hl a (by simp)
      have ha' : a' < 256 := hl' a' (by simp)
      have e1 : a / 16 = a' / 16 := by
        have := hexDig_inj (a / 16 % 16) (Nat.mod_lt _ (by norm_num))
          (a' / 16 % 16) (Nat.mod_lt _ (by norm_num)) h1
        omega
      have e2 : a % 16 = a' % 16 :=
        hexDig_inj (a % 16) (Nat.mod_lt _ (by norm_num))
          (a' % 16) (Nat.mod_lt _ (by norm_num)) h2
      have : a = a' := by omega
      subst this
      rw [ih (fun b hb => hl b (by simp [hb])) (fun b hb => hl' b (by simp [hb])) h3]

/-- The verify handler never writes a session slot. -/
theorem verifyAltered_fst (s : SessionState) (m : String) : (verifyAltered s m).1 = s := by
  rcases s with ⟨k, sig, ser⟩
  cases sig <;> cases ser <;> cases k <;> rfl

/-- Invariant of the reachable session states: a stored key is the 32
bytes the generator produced, and without a key no signature is stored. -/
theorem reachable_invariant {s : SessionState} (hs : Reachable s) :
    (∀ k, s.priv_key = some k → k.length = 32)
      ∧ (s.priv_key = none → s.orig_signature = none) := by
  induction hs with
  | init => exact ⟨fun k h => Option.noConfusion h, fun _ => rfl⟩
  | gen hr hk ih =>
    refine ⟨fun k' h => ?_, fun h => Option.noConfusion h⟩
    cases h
    exact hk
  | build hr ih =>
    rename_i s f now
    rcases hk : s.priv_key with _ | key
    · simpa [buildAndSign, hk] using ih
    · refine ⟨fun k' h => ?_, fun h => by simp [buildAndSign, hk] at h⟩
      simp only [buildAndSign, hk] at h
      cases h
      exact ih.1 _ hk
  | alter hr ih =>
    rename_i s m
    rwa [verifyAltered_fst]

/-- The code-point order on character lists is asymmetric. -/
theorem charListLt_asymm {x y : List Char} (h : charListLt x y = true) :
    charListLt y x = false := by
  induction x generalizing y with
  | nil =>
    cases y with
    | nil => simp [charListLt] at h
    | cons b bs => rfl
  | cons a as ih =>
    cases y with
    | nil => simp [charListLt] at h
    | cons b bs =>
      simp only [charListLt] at h ⊢
      rcases Nat.lt_trichotomy a.toNat b.toNat with h1 | h1 | h1
      · rw [if_neg (by omega), if_pos h1]
      · rw [if_neg (by omega), if_neg (by omega)] at h ⊢
        exact ih h
      · rw [if_neg (by omega), if_pos h1] at h
        exact absurd h (by simp)

/-- The induced `not-less` order on character lists is transitive. -/
theorem charListLt_le_trans {x y z : List Char} (h1 : charListLt y x = false)
    (h2 : charListLt z y = false) : charListLt z x = false := by
  induction z generalizing x y with
  | nil =>
    cases x with
    | nil => rfl
    | cons a as =>
      cases y with
      | nil => simp [charListLt] at h1
      | cons b bs => simp [charListLt] at h2
  | cons c cs ih =>
    cases x with
    | nil => rfl
    | cons a as =>
      cases y with
      | nil => simp [charListLt] at h1
      | cons b bs =>
        simp only [charListLt] at h1 h2 ⊢
        by_cases hba : b.toNat < a.toNat
        · rw [if_pos hba] at h1
          exact absurd h1 (by simp)
        · by_cases hcb : c.toNat < b.toNat
          · rw [if_pos hcb] at h2
            exact absurd h2 (by simp)
          · rw [if_neg (by omega)]
            by_cases hac : a.toNat < c.toNat
            · rw [if_pos hac]
            · rw [if_neg hac]
              rw [if_neg hba, if_neg (by omega)] at h1
              rw [if_neg hcb, if_neg (by omega)] at h2
              exact ih h1 h2

/-- Character lists incomparable in both directions are equal. -/
theorem charListLt_conn {x y : List Char} (h1 : charListLt x y = false)
    (h2 : charListLt y x = false) : x = y := by
  induction x generalizing y with
  | nil =>
    cases y with
    | nil => rfl
    | cons b bs => simp [charListLt] at h1
  | cons a as ih =>
    cases y with
    | nil => simp [charListLt] at h2
    | cons b bs =>
      simp only [charListLt] at h1 h2
      by_cases hab : a.toNat < b.toNat
      · rw [if_pos hab] at h1
        exact absurd h1 (by simp)
      · by_cases hba : b.toNat < a.toNat
        · rw [if_pos hba] at h2
          exact absurd h2 (by simp)
        · rw [if_neg hab, if_neg hba] at h1
          rw [if_neg hba, if_neg hab] at h2
          have ht : a.toNat = b.toNat := by omega
          have hc : a = b := Char.ext (UInt32.ext ht)
          rw [hc, ih h1 h2]

/-- Strings with equal character data are equal. -/
theorem str_data_eq {s t : String} (h : s.data = t.data) : s = t := by
  cases s
  cases t
  exact congrArg String.mk h

/-- Inserting an entry permutes consing it in front. -/
theorem insertEntry_perm (p : String × Json) (l : List (String × Json)) :
    (insertEntry p l).Perm (p :: l) := by
  induction l with
  | nil => exact List.Perm.refl _
  | cons q r ih =>
    simp only [insertEntry]
    by_cases h : strLt q.1 p.1 = true
    · rw [if_pos h]
      exact (ih.cons q).trans (List.Perm.swap p q r)
    · rw [if_neg h]

/-- Sorting the entries permutes them. -/
theorem sortEntries_perm (l : List (String × Json)) : (sortEntries l).Perm l := by
  induction l with
  | nil => exact List.Perm.refl _
  | cons p r ih => exact (insertEntry_perm p (sortEntries r)).trans (ih.cons p)

/-- Insertion preserves sortedness by key. -/
theorem insertEntry_pairwise {p : String × Json} {l : List (String × Json)}
    (hl : List.Pairwise keyLe l) : List.Pairwise keyLe (insertEntry p l) := by
  induction l with
  | nil => simp [insertEntry, keyLe]
  | cons q r ih =>
    rcases List.pairwise_cons.mp hl with ⟨hq, hr⟩
    simp only [insertEntry]
    by_cases h : strLt q.1 p.1 = true
    · rw [if_pos h]
      refine List.pairwise_cons.mpr ⟨?_, ih hr⟩
      intro x hx
      rcases List.mem_cons.mp ((insertEntry_perm p r).mem_iff.mp hx) with rfl | hx'
      · exact charListLt_asymm h
      · exact hq x hx'
    · rw [if_neg h]
      refine List.pairwise_cons.mpr ⟨?_, hl⟩
      intro x hx
      rcases List.mem_cons.mp hx with rfl | hx'
      · simpa [keyLe] using h
      · exact charListLt_le_trans (by simpa [strLt] using h) (hq x hx')

/-- The sorted entry list is sorted by key. -/
theorem sortEntries_pairwise (l : List (String × Json)) :
    List.Pairwise keyLe (sortEntries l) := by
  induction l with
  | nil => exact List.Pairwise.nil
  | cons p r ih => exact insertEntry_pairwise ih

/-- Two key-sorted permutations of each other with duplicate-free keys
coincide. -/
theorem sorted_perm_nodup_eq : ∀ {l l' : List (String × Json)},
    l.Perm l' → List.Pairwise keyLe l → List.Pairwise keyLe l' →
    (l.map Prod.fst).Nodup → l = l' := by
  intro l
  induction l with
  | nil => exact fun hp _ _ _ => hp.nil_eq
  | cons a r ih =>
    intro l' hp hs hs' hn
    cases l' with
    | nil => exact absurd hp.symm.nil_eq (by simp)
    | cons b r' =>
      have hab : a = b := by
        rcases List.mem_cons.mp (hp.mem_iff.mpr (List.mem_cons_self b r')) with hba | hbr
        · exact hba.symm
        rcases List.mem_cons.mp (hp.mem_iff.mp (List.mem_cons_self a r)) with hab | har
        · exact hab
        have h1 : keyLe a b := (List.pairwise_cons.mp hs).1 b hbr
        have h2 : keyLe b a := (List.pairwise_cons.mp hs').1 a har
        have hkey : a.1 = b.1 := str_data_eq (charListLt_conn h2 h1)
        exact absurd (List.mem_map.mpr ⟨b, hbr, hkey.symm⟩) (List.nodup_cons.mp hn).1
      subst hab
      rw [ih hp.cons_inv (List.pairwise_cons.mp hs).2 (List.pairwise_cons.mp hs').2
        (List.nodup_cons.mp hn).2]

/-- Sorting is invariant under permutation of entry lists with
duplicate-free keys: construction order cannot change the sorted list. -/
theorem sortEntries_eq_of_perm {l l' : List (String × Json)} (hp : l.Perm l')
    (hn : (l'.map Prod.fst).Nodup) : sortEntries l = sortEntries l' := by
  have hperm : ((sortEntries l).map Prod.fst).Perm (l'.map Prod.fst) :=
    ((sortEntries_perm l).trans hp).map Prod.fst
  exact sorted_perm_nodup_eq
    ((sortEntries_perm l).trans (hp.trans (sortEntries_perm l').symm))
    (sortEntries_pairwise l) (sortEntries_pairwise l')
    (hperm.nodup_iff.mpr hn)

/-- A character that needs no JSON escape is emitted as itself. -/
theorem escChar_id {c : Char} (h32 : 32 ≤ c.toNat) (hq : c ≠ '"') (hb : c ≠ '\\') :
    escChar c = [c] := by
  unfold escChar
  rw [if_neg hq, if_neg hb,
    if_neg (fun e => absurd (e ▸ h32) (by decide)),
    if_neg (fun e => absurd (e ▸ h32) (by decide)),
    if_neg (fun e => absurd (e ▸ h32) (by decide)),
    if_neg (by omega), if_neg (by omega), if_neg (by omega)]

/-- Escaping is the identity on character lists inside the safe range. -/
theorem escFlatten_id : ∀ {d : List Char},
    (∀ c ∈ d, 32 ≤ c.toNat ∧ c ≠ '"' ∧ c ≠ '\\') →
    (d.map escChar).flatten = d := by
  intro d
  induction d with
  | nil => exact fun _ => rfl
  | cons c cs ih =>
    intro h
    rcases h c (by simp) with ⟨h1, h2, h3⟩
    simp only [List.map_cons, List.flatten_cons]
    rw [escChar_id h1 h2 h3, ih (fun c' hc' => h c' (by simp [hc']))]
    rfl

/-- Escaping is the identity on strings whose characters are printable
and neither the quote nor the backslash: arbitrary Unicode content
stands as itself in the encoding. -/
theorem jsonEscape_of_safe {s : String}
    (h : ∀ c ∈ s.data, 32 ≤ c.toNat ∧ c ≠ '"' ∧ c ≠ '\\') : jsonEscape s = s := by
  cases s
  exact congrArg String.mk (escFlatten_id h)

/-- One `vin` element dumps to the text the spec describes. -/
theorem dumps_input (i : TxInput) : dumpsF 6 (txInputJson i) = specInputText i := rfl

/-- One `vout` element dumps to the text the spec describes. -/
theorem dumps_output (o : TxOutput) : dumpsF 6 (txOutputJson o) = specOutputText o := rfl

/-- The transaction object dumps to the canonical text the spec
describes. -/
theorem dumps_tx (tx : Transaction) : dumps (.obj (txEntries tx)) = specTxText tx := by
  have hin : (tx.vin.map txInputJson).map (dumpsF 6) = tx.vin.map specInputText := by
    rw [List.map_map]
    exact List.map_congr_left fun i _ => dumps_input i
  have hout : (tx.vout.map txOutputJson).map (dumpsF 6) = tx.vout.map specOutputText := by
    rw [List.map_map]
    exact List.map_congr_left fun o _ => dumps_output o
  show "\x7b" ++ joinComma
      [jstr "memo" ++ ":" ++ jstr tx.memo,
       jstr "timestamp" ++ ":" ++ intRepr tx.timestamp,
       jstr "version" ++ ":" ++ intRepr tx.version,
       jstr "vin" ++ ":" ++ ("[" ++ joinComma ((tx.vin.map txInputJson).map (dumpsF 6)) ++ "]"),
       jstr "vout" ++ ":" ++ ("[" ++ joinComma ((tx.vout.map txOutputJson).map (dumpsF 6)) ++ "]")]
    ++ "\x7d" = specTxText tx
  rw [hin, hout]
  exact rfl

/-! ## The claims -/

/-- C1: the serialization of every transaction is the UTF-8 encoding of
the canonical text the spec describes - exactly the top-level keys
`memo`, `timestamp`, `version`, `vin`, `vout` emitted in lexicographic
order (strictly sorted, as the chain clause shows), the `vin` and `vout`
elements with their keys in lexicographic order, the tightest separators
and only the mandatory JSON escapes, so that arbitrary Unicode string
content stands as itself; the output is a pure function of the field
values, and permuting the construction order of the entry list cannot
change the emitted bytes. -/
theorem serialize_canonical (tx : Transaction) :
    (tx.serialize = strUtf8 (specTxText tx))
      ∧ ((sortEntries (txEntries tx)).map Prod.fst
          = ["memo", "timestamp", "version", "vin", "vout"])
      ∧ (∀ i : TxInput,
          (sortEntries [("prev_txid", Json.str i.prev_txid),
            ("index", Json.num i.index)]).map Prod.fst = ["index", "prev_txid"])
      ∧ (∀ o : TxOutput,
          (sortEntries [("address", Json.str o.address),
            ("amount", Json.num o.amount)]).map Prod.fst = ["address", "amount"])
      ∧ (strLt "memo" "timestamp" = true ∧ strLt "timestamp" "version" = true
          ∧ strLt "version" "vin" = true ∧ strLt "vin" "vout" = true
          ∧ strLt "index" "prev_txid" = true ∧ strLt "address" "amount" = true)
      ∧ (∀ l, l.Perm (txEntries tx) →
          dumpsF 8 (.obj l) = dumpsF 8 (.obj (txEntries tx)))
      ∧ (∀ s : String, (∀ c ∈ s.data, 32 ≤ c.toNat ∧ c ≠ '"' ∧ c ≠ '\\') →
          jsonEscape s = s)
      ∧ (∀ tx' : Transaction, tx.version = tx'.version → tx.timestamp = tx'.timestamp →
          tx.vin = tx'.vin → tx.vout = tx'.vout → tx.memo = tx'.memo →
          tx.serialize = tx'.serialize) := by
  refine ⟨congrArg strUtf8 (dumps_tx tx), rfl, fun i => rfl, fun o => rfl, by decide,
    ?_, fun s h => jsonEscape_of_safe h, ?_⟩
  · intro l hp
    have hn : ((txEntries tx).map Prod.fst).Nodup := by
      show (["version", "timestamp", "vin", "vout", "memo"] : List String).Nodup
      decide
    have hs : sortEntries l = sortEntries (txEntries tx) :=
      sortEntries_eq_of_perm hp hn
    show "\x7b" ++ joinComma ((sortEntries l).map fun p => jstr p.1 ++ ":" ++ dumpsF 7 p.2) ++ "\x7d"
        = "\x7b" ++ joinComma ((sortEntries (txEntries tx)).map
            fun p => jstr p.1 ++ ":" ++ dumpsF 7 p.2) ++ "\x7d"
    rw [hs]
  · intro tx' h1 h2 h3 h4 h5
    cases tx
    cases tx'
    dsimp only at h1 h2 h3 h4 h5
    subst h1
    subst h2
    subst h3
    subst h4
    subst h5
    rfl

/-- Witness for C1: at the spec's concrete scenario, swapping the first
two entries of the construction order leaves the dump unchanged, and a
Unicode memo passes through the escape untouched. -/
theorem serialize_canonical_witness :
    dumpsF 8 (.obj (("timestamp", Json.num 1700000000) :: ("version", Json.num 1)
        :: (txEntries specScenarioTx).drop 2))
      = dumpsF 8 (.obj (txEntries specScenarioTx))
    ∧ jsonEscape "mañana™" = "mañana™" :=
  ⟨(serialize_canonical specScenarioTx).2.2.2.2.2.1 _ (List.Perm.swap _ _ _),
   (serialize_canonical specScenarioTx).2.2.2.2.2.2.1 "mañana™" (by decide)⟩

/-- C2: for every byte sequence, the identifier applies SHA-256 twice in
sequence (hash the input, then hash the raw digest), renders the final
digest as a string of lowercase hexadecimal digits only, and is
deterministic: equal byte sequences give equal identifiers. -/
theorem hexId_spec (b : List Nat) :
    hexId b = bytesToHex (sha256 (sha256 b))
      ∧ (∀ c ∈ (hexId b).data, c ∈ hexDigits)
      ∧ (∀ b' : List Nat, b = b' → hexId b = hexId b') := by
  refine ⟨rfl, ?_, fun b' h => by rw [h]⟩
  intro c hc
  simp only [hexId, bytesToHex, List.mem_flatten, List.mem_map] at hc
  obtain ⟨l, ⟨x, _, rfl⟩, hcl⟩ := hc
  simp only [List.mem_cons, List.not_mem_nil, or_false] at hcl
  rcases hcl with h | h
  · exact h ▸ hexDig_mem _
  · exact h ▸ hexDig_mem _

/-- Witness for C2 at the concrete digest of the bytes of `"abc"`. -/
theorem hexId_spec_witness : '4' ∈ hexDigits :=
  (hexId_spec [97, 98, 99]).2.1 '4' (by decide)

/-- C3: the verification comparison of the program returns true exactly
when the recomputed signature equals the expected one - stated both on
the hex strings the program compares and, through injectivity of hex
rendering, on the underlying signature byte sequences. -/
theorem verifySig_spec (key msg sigBytes : List Nat) (hb : ∀ b ∈ sigBytes, b < 256) :
    (∀ expected : String,
        verifySig key msg expected = true ↔ bytesToHex (hmac_sha256 key msg) = expected)
      ∧ (verifySig key msg (bytesToHex sigBytes) = true ↔ hmac_sha256 key msg = sigBytes) := by
  have hx : ∀ b ∈ hmac_sha256 key msg, b < 256 := fun b hb' => sha256_lt b hb'
  refine ⟨fun expected => by simp [verifySig], ?_⟩
  simp only [verifySig, beq_iff_eq]
  exact ⟨fun h => bytesToHex_inj hx hb h, fun h => by rw [h]⟩

/-- Witness for C3 at a concrete key, message and signature. -/
theorem verifySig_spec_witness :
    verifySig [0] [1] (bytesToHex (hmac_sha256 [0] [1])) = true ↔
      hmac_sha256 [0] [1] = hmac_sha256 [0] [1] :=
  (verifySig_spec [0] [1] (hmac_sha256 [0] [1]) (fun b hb => sha256_lt b hb)).2

/-- C4: round-trip signing - verifying a message against the signature
just computed for it under the same key always succeeds. -/
theorem verifySig_roundtrip (key msg : List Nat) :
    verifySig key msg (bytesToHex (hmac_sha256 key msg)) = true := by
  simp [verifySig]

/-- C6: on a signed session, verify-with-alteration serializes the stored
original structure with exactly the memo substituted (every other field
keeps its stored value; the current form inputs do not enter), recomputes
the identifier over the new bytes, checks the stored signature against
them, and returns the session state unchanged - in fact no state shape is
ever written by the handler, so verification is repeatable. -/
theorem verifyAltered_spec (key : List Nat) (sig : String) (tx : Transaction) (m : String) :
    (verifyAltered ⟨some key, some sig, some (.obj (txEntries tx))⟩ m
      = (⟨some key, some sig, some (.obj (txEntries tx))⟩,
         .ok ⟨({ tx with memo := m } : Transaction).serialize,
              hexId ({ tx with memo := m } : Transaction).serialize,
              verifySig key ({ tx with memo := m } : Transaction).serialize sig⟩))
      ∧ ∀ (s : SessionState) (m' : String), (verifyAltered s m').1 = s :=
  ⟨rfl, verifyAltered_fst⟩

/-- C7: generating a new key, from any state, stores exactly the fresh
key and discards both the stored signature and the stored serialization;
in the resulting state a verification attempt is rejected, so no
signature is ever presented as valid under a key that did not produce
it. -/
theorem generateKey_spec (s : SessionState) (k : List Nat) :
    generateKey s k = ⟨some k, none, none⟩
      ∧ ∀ m, verifyAltered (generateKey s k) m
          = (generateKey s k, .error .malformedState) :=
  ⟨rfl, fun _ => rfl⟩

/-- C8: in every reachable session state, a stored key has the generated
length 32 (a wrong-length key never occurs); with the key absent, the
sign action fails fast with the invalid-key error and changes nothing,
and the verify action likewise fails and changes nothing (without a key
no signed record can exist), rather than proceeding with an empty key. -/
theorem key_absent_guards {s : SessionState} (hs : Reachable s) :
    (∀ k, s.priv_key = some k → k.length = 32)
      ∧ (s.priv_key = none →
          ∀ f now, buildAndSign s f now = (s, .error .invalidKey))
      ∧ (s.priv_key = none →
          ∀ m, verifyAltered s m = (s, .error .malformedState)) := by
  have inv := reachable_invariant hs
  refine ⟨inv.1, fun h f now => by simp [buildAndSign, h], fun h m => ?_⟩
  have h2 := inv.2 h
  rcases s with ⟨k?, sig?, ser?⟩
  dsimp only at h h2
  subst h
  subst h2
  cases ser? <;> rfl

/-- Witness for C8 at the initial state. -/
theorem key_absent_guards_witness :
    buildAndSign initState ⟨"a", 0, "b", 1, "", 0, "m"⟩ 7
      = (initState, .error .invalidKey) :=
  (key_absent_guards Reachable.init).2.1 rfl ⟨"a", 0, "b", 1, "", 0, "m"⟩ 7

/-- C9: a verification request without a prior signed record present
(no stored signature, or no stored serialization) is rejected with the
malformed-state error and the whole session state is left unchanged. -/
theorem verify_without_record {s : SessionState} (m : String)
    (h : s.orig_signature = none ∨ s.orig_serialization = none) :
    verifyAltered s m = (s, .error .malformedState) := by
  rcases s with ⟨k?, sig?, ser?⟩
  rcases h with h | h <;> (dsimp only at h; subst h)
  · cases ser? <;> cases k? <;> rfl
  · cases sig? <;> cases k? <;> rfl

/-- Witness for C9 at the initial state. -/
theorem verify_without_record_witness :
    verifyAltered initState "x" = (initState, .error .malformedState) :=
  verify_without_record "x" (Or.inl rfl)

/-- C10: the second output enters the outputs list exactly when the
second address is a non-empty string and the second amount is strictly
positive; with amount zero it is silently omitted, and the list built
into the signed transaction by build-and-sign is this one. -/
theorem buildVout_spec :
    (∀ (a1 : String) (m1 : Int) (a2 : String) (m2 : Int),
        buildVout a1 m1 a2 m2
          = if a2 ≠ "" ∧ 0 < m2 then [⟨a1, m1⟩, ⟨a2, m2⟩] else [⟨a1, m1⟩])
      ∧ (∀ (a1 : String) (m1 : Int) (a2 : String), buildVout a1 m1 a2 0 = [⟨a1, m1⟩])
      ∧ (∀ (key : List Nat) (sig : Option String) (ser : Option Json)
            (f : FormInputs) (now : Int),
          (buildAndSign ⟨some key, sig, ser⟩ f now).1.orig_serialization
              = some (.obj (txEntries (buildTx f now)))
            ∧ (buildTx f now).vout = buildVout f.addr_1 f.amt_1 f.addr_2 f.amt_2) := by
  refine ⟨fun a1 m1 a2 m2 => ?_, fun a1 m1 a2 => ?_,
    fun key sig ser f now => ⟨rfl, rfl⟩⟩
  · unfold buildVout
    split <;> rfl
  · unfold buildVout
    rw [if_neg (by simp)]
    rfl

/-! ## Concrete validation of the embedding

Machine-checked runs of the embedded functions on the spec's test
vectors: the FIPS `"abc"` digest, the concrete scenario's canonical
text and identifier, and the tamper scenario (sign, then verify with
the memo tampered and with the memo unchanged). -/

/-- The embedded SHA-256 reproduces the standard `"abc"` test vector. -/
theorem sha256_abc_vector :
    bytesToHex (sha256 [97, 98, 99])
      = "ba7816bf8f01cfea414140de5dae2223b00361a396177a9cb410ff61f20015ad" := by
  decide

/-- The concrete scenario serializes to the expected canonical text and
identifier. -/
theorem specScenario_check :
    String.mk (specScenarioTx.serialize.map Char.ofNat)
      = "\x7b\"memo\":\"test\",\"timestamp\":1700000000,\"version\":1,\"vin\":[\x7b\"index\":0,\"prev_txid\":\"a1a1a1a1a1a1a1a1a1a1a1a1a1a1a1a1a1a1a1a1a1a1a1a1a1a1a1a1a1a1a1a1\"\x7d],\"vout\":[\x7b\"address\":\"EDU1DESTINOAAAA1111\",\"amount\":5000\x7d]\x7d"
    ∧ specScenarioTx.txid
      = "c8f180057f6fe6d0aaed1d5ccb272b33646a53f99dc63a54a0af00e73186bf31" := by
  constructor
  · decide
  · decide

/-- The tamper scenario: after building and signing the concrete
scenario, verification with the memo tampered reports a mismatch, and
verification with the memo unchanged reports a match. -/
theorem tamperScenario_check :
    okOf (verifyAltered (buildAndSign (generateKey initState demoKey)
        scenarioInputs 1700000000).1 "tampered").2 = some false
    ∧ okOf (verifyAltered (buildAndSign (generateKey initState demoKey)
        scenarioInputs 1700000000).1 "test").2 = some true := by
  constructor
  · decide
  · decide

end TxSim
